import Mathlib

/-!
Shallow embedding of game_tools.py: finite N-player normal form games.
A Player owns a payoff tensor; payoff_vector reduces it against a profile
of opponent actions; best_response and is_best_response query the result;
NormalFormGame bundles rotated players and exposes indexed read/write and
the Nash equilibrium predicate is_nash.  Numeric payoffs are modelled by
rationals, numpy ndarrays by a shape together with a multi-index valuation,
and fallible operations return Except or carry an explicit error output.
-/

namespace GameTools

/-- A numeric array of arbitrary rank: a shape together with a value at
every multi-index.  Models a numpy ndarray with rational entries. -/
structure Tensor where
  shape : List Nat
  val : List Nat → ℚ

/-- An action is either a pure action (an integer index) or a mixed action
(a probability vector); the source distinguishes the two by an isinstance
test on int. -/
inductive Action where
  | pure (a : Nat)
  | mixed (m : List ℚ)

/-- Size of the last axis of a tensor: numpy shape[-1]. -/
def Tensor.lastDim (t : Tensor) : Nat := t.shape.getD (t.shape.length - 1) 0

/-- Point update of a tensor: numpy item assignment arr[idx] = x. -/
def Tensor.write (t : Tensor) (idx : List Nat) (x : ℚ) : Tensor :=
  ⟨t.shape, fun j => if j = idx then x else t.val j⟩

/-- Translation of the local function reduce_last_player inside
Player.payoff_vector: fix the last player axis to the given action, by
selecting the slice at a pure action (numpy take along axis -1) or by
contracting the last axis with a mixed action (numpy dot). -/
def reduce_last_player (payoff_array : Tensor) (action : Action) : Tensor :=
  match action with
  | Action.pure a =>
      ⟨payoff_array.shape.dropLast, fun idx => payoff_array.val (idx ++ [a])⟩
  | Action.mixed m =>
      ⟨payoff_array.shape.dropLast,
        fun idx => ∑ k ∈ Finset.range payoff_array.lastDim,
          payoff_array.val (idx ++ [k]) * m.getD k 0⟩

/-- A player owns one payoff tensor (Player.payoff_array in the source). -/
structure Player where
  payoff_array : Tensor

/-- Player.num_opponents: tensor rank minus one. -/
def Player.num_opponents (p : Player) : Nat := p.payoff_array.shape.length - 1

/-- Player.action_sizes: the full shape tuple. -/
def Player.action_sizes (p : Player) : List Nat := p.payoff_array.shape

/-- Player.num_actions: the size of axis 0. -/
def Player.num_actions (p : Player) : Nat := p.action_sizes.headD 0

/-- Player.tol, set to 1e-8 in the constructor. -/
def Player.tol (_ : Player) : ℚ := 1 / 100000000

/-- Player.payoff_vector: reduce the payoff tensor against the profile of
opponent actions, processing opponents from the last axis inward.  With a
single opponent the profile holds that one action; with no opponents the
tensor is returned unchanged. -/
def Player.payoff_vector (p : Player) (opponents_actions : List Action) : Tensor :=
  if p.num_opponents = 1 then
    reduce_last_player p.payoff_array (opponents_actions.headD (Action.pure 0))
  else if 2 ≤ p.num_opponents then
    (List.range p.num_opponents).reverse.foldl
      (fun acc i => reduce_last_player acc (opponents_actions.getD i (Action.pure 0)))
      p.payoff_array
  else
    p.payoff_array

/-- Maximum entry of a rank-1 tensor: numpy max over the payoff vector. -/
def Tensor.maxval (t : Tensor) : ℚ :=
  ((List.range (t.shape.headD 0)).map (fun i => t.val [i])).foldl max (t.val [0])

/-- Dot product of a coefficient list with a rank-1 tensor: numpy dot. -/
def dotVec (m : List ℚ) (t : Tensor) : ℚ :=
  ∑ k ∈ Finset.range m.length, m.getD k 0 * t.val [k]

/-- Player.is_best_response: the realized payoff of the own action is
within tol of the maximum of the payoff vector. -/
def Player.is_best_response (p : Player) (own_action : Action)
    (opponents_actions : List Action) : Bool :=
  let payoff_vec := p.payoff_vector opponents_actions
  let payoff_max := payoff_vec.maxval
  match own_action with
  | Action.pure a => decide (payoff_max - p.tol ≤ payoff_vec.val [a])
  | Action.mixed m => decide (payoff_max - p.tol ≤ dotVec m payoff_vec)

/-- First index attaining the maximum of f on the range 0..n-1: the fold
numpy argmax performs. -/
def argmaxAux (f : Nat → ℚ) (n : Nat) : Nat :=
  (List.range n).foldl (fun best i => if f best < f i then i else best) 0

/-- numpy argmax over a rank-1 tensor. -/
def Tensor.argmax (t : Tensor) : Nat := argmaxAux (fun i => t.val [i]) (t.shape.headD 0)

/-- The tie_breaking argument of Player.best_response: the three accepted
values first, random and False, or anything else. -/
inductive TieBreaking where
  | first
  | random
  | off
  | other (s : String)

/-- The free function random_choice, with the random draw supplied as an
explicit oracle rng: a singleton list is returned directly. -/
def random_choice (rng : List Nat → Nat) (actions : List Nat) : Nat :=
  if actions.length = 1 then actions.headD 0 else rng actions

/-- The local variable best_responses of Player.best_response: indices of
the payoff vector within tol of its maximum, ascending (numpy where). -/
def Player.best_responses (p : Player) (payoff_vec : Tensor) : List Nat :=
  (List.range (payoff_vec.shape.headD 0)).filter
    (fun i => decide (payoff_vec.maxval - p.tol ≤ payoff_vec.val [i]))

/-- Player.best_response: dispatch on tie_breaking, with argmax for first,
a random draw from the best response set for random, the whole set for
False, and an invalid-argument error otherwise. -/
def Player.best_response (p : Player) (rng : List Nat → Nat)
    (opponents_actions : List Action) (tie_breaking : TieBreaking) :
    Except String (Nat ⊕ List Nat) :=
  let payoff_vec := p.payoff_vector opponents_actions
  match tie_breaking with
  | TieBreaking.first => Except.ok (Sum.inl payoff_vec.argmax)
  | TieBreaking.random =>
      Except.ok (Sum.inl (random_choice rng (p.best_responses payoff_vec)))
  | TieBreaking.off => Except.ok (Sum.inr (p.best_responses payoff_vec))
  | TieBreaking.other _ =>
      Except.error "tie_breaking must be one of \u0027first\u0027, \u0027random\u0027 or False"

/-- The free function pure2mixed: the one-hot probability vector of a pure
action. -/
def pure2mixed (num_actions : Nat) (action : Nat) : List ℚ :=
  (List.range num_actions).map (fun i => if i = action then 1 else 0)

/-- NormalFormGame: an ordered tuple of players. -/
structure NormalFormGame where
  players : List Player

/-- NormalFormGame.N: the number of players. -/
def NormalFormGame.N (g : NormalFormGame) : Nat := g.players.length

/-- Placeholder player used as the default of list lookups that the source
performs on positions proven in range. -/
def defaultPlayer : Player := ⟨⟨[], fun _ => 0⟩⟩

/-- The rotated multi-index used throughout NormalFormGame: the numpy
fancy index profile[arange(i, i+N) mod N]. -/
def rotIndex (index : List Nat) (i N : Nat) : List Nat :=
  (List.range N).map (fun k => index.getD ((i + k) % N) 0)

/-- An argument passed where the source expects a sequence: either an
actual sequence or an object on which len raises TypeError. -/
inductive PyArg (α : Type) where
  | seq (l : List α)
  | nonseq

/-- NormalFormGame getitem: read the payoff profile at an action profile,
indexing every player at the correspondingly rotated coordinate.  A wrong
length raises IndexError, a non-sequence raises TypeError. -/
def NormalFormGame.getitem (g : NormalFormGame) (action_profile : PyArg Nat) :
    Except String (List ℚ) :=
  match action_profile with
  | PyArg.nonseq => Except.error "TypeError: index must be a tuple"
  | PyArg.seq l =>
    if l.length ≠ g.N then Except.error "IndexError: index must be of length N"
    else Except.ok ((List.range g.N).map (fun i =>
      (g.players.getD i defaultPlayer).payoff_array.val (rotIndex l i g.N)))

/-- NormalFormGame setitem: validate both arguments, then write the i-th
payoff into player i at the rotated coordinate.  The returned game is the
state after the call and the option carries the raised error, if any; both
length checks precede every write.  One tensor per player models the
constructor paths that allocate a fresh array for every player (action
sizes, payoff-profile tensor); the square-matrix symmetric constructor
makes both players reference one shared array and is modelled by the
object graph GameStore below. -/
def NormalFormGame.setitem (g : NormalFormGame) (action_profile : PyArg Nat)
    (payoff_profile : PyArg ℚ) : NormalFormGame × Option String :=
  match action_profile with
  | PyArg.nonseq => (g, some "TypeError: index must be a tuple")
  | PyArg.seq l =>
    if l.length ≠ g.N then (g, some "IndexError: index must be of length N")
    else
      match payoff_profile with
      | PyArg.nonseq => (g, some "TypeError: value must be a tuple")
      | PyArg.seq v =>
        if v.length ≠ g.N then
          (g, some "ValueError: value must be an array_like of length N")
        else
          (⟨(List.range g.N).map (fun i =>
              ⟨(g.players.getD i defaultPlayer).payoff_array.write
                (rotIndex l i g.N) (v.getD i 0)⟩)⟩,
           none)

/-- NormalFormGame.is_nash: every player best-responds to the profile of
the others, with the opponent actions presented in the rotation the player
expects.  Profile accesses are checked: a profile shorter than required
raises IndexError (extra trailing entries are ignored, as in the source,
which never checks the profile length here). -/
def NormalFormGame.is_nash (g : NormalFormGame) (action_profile : List Action) :
    Except String Bool :=
  if g.N = 2 then
    match action_profile[0]?, action_profile[1]? with
    | some a0, some a1 =>
        Except.ok (((g.players.getD 0 defaultPlayer).is_best_response a0 [a1]) &&
                   ((g.players.getD 1 defaultPlayer).is_best_response a1 [a0]))
    | _, _ => Except.error "IndexError: tuple index out of range"
  else if 3 ≤ g.N then
    if action_profile.length < g.N then
      Except.error "IndexError: index out of bounds"
    else
      Except.ok ((List.range g.N).all (fun i =>
        (g.players.getD i defaultPlayer).is_best_response
          (action_profile.getD i (Action.pure 0))
          ((List.range (g.N - 1)).map (fun k =>
            action_profile.getD ((i + 1 + k) % g.N) (Action.pure 0)))))
  else
    match action_profile[0]? with
    | some a0 => Except.ok ((g.players.getD 0 defaultPlayer).is_best_response a0 [])
    | none => Except.error "IndexError: tuple index out of range"

/-- The NormalFormGame constructor branch for a 1-dimensional action-sizes
descriptor: N all-zero players with cyclically rotated shapes. -/
def NormalFormGame.fromActionSizes (sizes : List Nat) : NormalFormGame :=
  ⟨(List.range sizes.length).map (fun i =>
    ⟨⟨(List.range sizes.length).map (fun k => sizes.getD ((i + k) % sizes.length) 0),
      fun _ => 0⟩⟩)⟩

/-- Fresh all-zero ndarray used as the default of heap lookups. -/
def defaultTensor : Tensor := ⟨[], fun _ => 0⟩

/-- The object graph of a game: the distinct ndarray objects of the heap,
together with, for each player, the index of the array object that the
player attribute payoff_array references.  np.asarray returns its argument
unchanged when it already is an ndarray, so the square-matrix symmetric
constructor makes every player reference one shared array, while the other
constructor paths allocate one fresh array per player. -/
structure GameStore where
  arrays : List Tensor
  refs : List Nat

/-- Number of players of the stored game. -/
def GameStore.N (s : GameStore) : Nat := s.refs.length

/-- Player i's payoff_array, read through its reference into the heap. -/
def GameStore.payoff_array (s : GameStore) (i : Nat) : Tensor :=
  s.arrays.getD (s.refs.getD i 0) defaultTensor

/-- The symmetric two-player constructor branch: data is converted to an
ndarray once, and each of the two Player constructors calls np.asarray on
that same ndarray, receiving the identical object: both players alias one
array. -/
def GameStore.fromSymmetricMatrix (t : Tensor) : GameStore := ⟨[t], [0, 0]⟩

/-- The action-sizes constructor branch on the object graph: one fresh
zero array per player, with cyclically rotated shapes, no sharing. -/
def GameStore.fromActionSizes (sizes : List Nat) : GameStore :=
  ⟨(List.range sizes.length).map (fun i =>
    ⟨(List.range sizes.length).map (fun k => sizes.getD ((i + k) % sizes.length) 0),
      fun _ => 0⟩),
   List.range sizes.length⟩

/-- getitem on the object graph: each player is read at its rotated
coordinate through its array reference. -/
def GameStore.getitem (s : GameStore) (action_profile : PyArg Nat) :
    Except String (List ℚ) :=
  match action_profile with
  | PyArg.nonseq => Except.error "TypeError: index must be a tuple"
  | PyArg.seq l =>
    if l.length ≠ s.N then Except.error "IndexError: index must be of length N"
    else Except.ok ((List.range s.N).map (fun i =>
      (s.payoff_array i).val (rotIndex l i s.N)))

/-- setitem on the object graph: validate both arguments, then, in player
order, write payoff i into the array referenced by player i at the rotated
coordinate.  When two players reference the same array and their rotated
coordinates coincide, the later write overwrites the earlier one, exactly
as the sequential ndarray item assignments of the source do. -/
def GameStore.setitem (s : GameStore) (action_profile : PyArg Nat)
    (payoff_profile : PyArg ℚ) : GameStore × Option String :=
  match action_profile with
  | PyArg.nonseq => (s, some "TypeError: index must be a tuple")
  | PyArg.seq l =>
    if l.length ≠ s.N then (s, some "IndexError: index must be of length N")
    else
      match payoff_profile with
      | PyArg.nonseq => (s, some "TypeError: value must be a tuple")
      | PyArg.seq v =>
        if v.length ≠ s.N then
          (s, some "ValueError: value must be an array_like of length N")
        else
          (⟨(List.range s.N).foldl (fun arrs i =>
              arrs.set (s.refs.getD i 0)
                ((arrs.getD (s.refs.getD i 0) defaultTensor).write
                  (rotIndex l i s.N) (v.getD i 0)))
              s.arrays,
            s.refs⟩,
           none)

/-!
Verification infrastructure.  The rational operations of Batteries are
marked irreducible, which blocks kernel evaluation of concrete payoff
computations; the marker is lifted here (soundness is unaffected, the
kernel never considered reducibility). -/

set_option allowUnsafeReducibility true in
attribute [semireducible] Rat.sub Rat.add Rat.mul Rat.inv Rat.ofScientific

/-- Normal form of the reduction loop of payoff_vector: reduce the last
axes of the tensor against the actions of the list, processed from the
last entry inward. -/
def reduceAll (t : Tensor) (oa : List Action) : Tensor :=
  match oa with
  | [] => t
  | a :: rest => reduce_last_player (reduceAll t rest) a

theorem reduceAll_reduce (t : Tensor) (a : Action) :
    ∀ l : List Action, reduceAll (reduce_last_player t a) l = reduceAll t (l ++ [a]) := by
  intro l
  induction l with
  | nil => rfl
  | cons x xs ih => simp [reduceAll, ih]

theorem foldl_range_reverse_eq_reduceAll (oa : List Action) :
    ∀ (m : Nat) (t : Tensor), m ≤ oa.length →
      (List.range m).reverse.foldl
        (fun acc i => reduce_last_player acc (oa.getD i (Action.pure 0))) t
      = reduceAll t (oa.take m) := by
  intro m
  induction m with
  | zero => intro t _; simp [reduceAll]
  | succ k ih =>
    intro t hk
    have hk' : k < oa.length := hk
    rw [List.range_succ, List.reverse_append]
    simp only [List.reverse_singleton, List.singleton_append, List.foldl_cons]
    rw [ih _ (Nat.le_of_lt hk'), reduceAll_reduce]
    congr 1
    rw [List.take_succ]
    congr 1
    rw [List.getD_eq_getElem?_getD, List.getElem?_eq_getElem hk']
    rfl

theorem payoff_vector_eq_reduceAll (p : Player) (oa : List Action)
    (h1 : 1 ≤ p.num_opponents) (h2 : oa.length = p.num_opponents) :
    p.payoff_vector oa = reduceAll p.payoff_array oa := by
  unfold Player.payoff_vector
  rcases Nat.lt_or_ge p.num_opponents 2 with h | h
  · have hone : p.num_opponents = 1 := Nat.le_antisymm (Nat.lt_succ_iff.mp h) h1
    rw [if_pos hone]
    have : oa.length = 1 := h2.trans hone
    obtain ⟨a, rfl⟩ := List.length_eq_one.mp this
    rfl
  · have hne : ¬ p.num_opponents = 1 := by omega
    rw [if_neg hne, if_pos h, ← h2,
      foldl_range_reverse_eq_reduceAll oa oa.length p.payoff_array (Nat.le_refl _),
      List.take_length]

theorem dropLast_take (l : List Nat) (k : Nat) (h : k ≤ l.length) :
    (l.take k).dropLast = l.take (k - 1) := by
  rw [List.dropLast_eq_take, List.length_take, List.take_take]
  congr 1
  omega

theorem reduce_shape (t : Tensor) (a : Action) :
    (reduce_last_player t a).shape = t.shape.dropLast := by
  cases a <;> rfl

theorem reduceAll_shape (t : Tensor) :
    ∀ oa : List Action, (reduceAll t oa).shape = t.shape.take (t.shape.length - oa.length) := by
  intro oa
  induction oa with
  | nil => simp [reduceAll]
  | cons a rest ih =>
    show (reduce_last_player (reduceAll t rest) a).shape = _
    rw [reduce_shape, ih, dropLast_take _ _ (Nat.sub_le _ _)]
    congr 1

theorem reduceAll_pure_val (t : Tensor) :
    ∀ (js : List Nat) (idx : List Nat),
      (reduceAll t (js.map Action.pure)).val idx = t.val (idx ++ js) := by
  intro js
  induction js with
  | nil => intro idx; simp [reduceAll]
  | cons j rest ih =>
    intro idx
    show (reduce_last_player (reduceAll t (rest.map Action.pure)) (Action.pure j)).val idx = _
    show (reduceAll t (rest.map Action.pure)).val (idx ++ [j]) = _
    rw [ih (idx ++ [j]), List.append_assoc]
    rfl

theorem getD_take (l : List Nat) (m k : Nat) (d : Nat) (h : k < m) :
    (l.take m).getD k d = l.getD k d := by
  rw [List.getD_eq_getElem?_getD, List.getD_eq_getElem?_getD,
    List.getElem?_take_of_lt h]

/-- Concrete two by two coordination player with payoff matrix
rows (4, 0) and (3, 2). -/
def Pco : Player := ⟨⟨[2, 2], fun idx =>
  if idx = [0, 0] then 4 else if idx = [0, 1] then 0 else
  if idx = [1, 0] then 3 else if idx = [1, 1] then 2 else 0⟩⟩

/-- Zero-initialized two-player game with two actions each, built from the
action-size descriptor. -/
def g22 : NormalFormGame := NormalFormGame.fromActionSizes [2, 2]

/-- Zero-initialized three-player game with two actions each. -/
def g3 : NormalFormGame := NormalFormGame.fromActionSizes [2, 2, 2]

/-- A fixed random oracle used to instantiate theorems quantified over the
randomness capability. -/
def rng0 : List Nat → Nat := fun _ => 0

/-- Claim C2: for a player with at least one opponent and a pure opponent
profile of the right length, payoff_vector is the vector of length
num_actions whose entry at a equals the payoff tensor entry at the
multi-index formed by a followed by the opponent indices in rotation
order. -/
theorem payoff_vector_pure_eq_tensor_entry (p : Player) (js : List Nat)
    (h1 : 1 ≤ p.num_opponents) (h2 : js.length = p.num_opponents) :
    (p.payoff_vector (js.map Action.pure)).shape = [p.num_actions] ∧
    ∀ a : Nat, (p.payoff_vector (js.map Action.pure)).val [a]
      = p.payoff_array.val (a :: js) := by
  have hs : p.payoff_array.shape.length = p.num_opponents + 1 := by
    have h1' := h1
    unfold Player.num_opponents at h1' ⊢
    omega
  have hlen : (js.map Action.pure).length = p.num_opponents := by simpa using h2
  have heq := payoff_vector_eq_reduceAll p (js.map Action.pure) h1 hlen
  constructor
  · rw [heq, reduceAll_shape, hlen, hs]
    have hone : p.num_opponents + 1 - p.num_opponents = 1 := by omega
    rw [hone]
    cases hsh : p.payoff_array.shape with
    | nil => rw [hsh] at hs; simp at hs
    | cons x xs =>
      simp [Player.num_actions, Player.action_sizes, hsh]
  · intro a
    rw [heq, reduceAll_pure_val]
    rfl

/-- Witness for C2 at the coordination player and opponent profile (1). -/
theorem payoff_vector_pure_eq_tensor_entry_witness :
    1 ≤ Pco.num_opponents ∧
    (Pco.payoff_vector ([1].map Action.pure)).shape = [Pco.num_actions] ∧
    (Pco.payoff_vector ([1].map Action.pure)).val [0] = Pco.payoff_array.val [0, 1] :=
  ⟨by decide,
    (payoff_vector_pure_eq_tensor_entry Pco [1] (by decide) (by decide)).1,
    (payoff_vector_pure_eq_tensor_entry Pco [1] (by decide) (by decide)).2 0⟩

/-- Claim C1: for a game with at least three players and a pure action
profile of length N with in-range entries, is_nash answers true exactly
when every player i best-responds with own action profile[i] against the
opponent actions taken at the rotated positions i+1 .. i+N-1 mod N. -/
theorem is_nash_iff_all_rotated_best_responses (g : NormalFormGame) (js : List Nat)
    (h3 : 3 ≤ g.N) (hlen : js.length = g.N)
    (hin : ∀ i, i < g.N →
      js.getD i 0 < (g.players.getD i defaultPlayer).num_actions) :
    (g.is_nash (js.map Action.pure) = Except.ok true ↔
      ∀ i, i < g.N →
        (g.players.getD i defaultPlayer).is_best_response
          (Action.pure (js.getD i 0))
          ((List.range (g.N - 1)).map (fun k =>
            Action.pure (js.getD ((i + 1 + k) % g.N) 0))) = true) := by
  have hbody : ∀ i : Nat, (js.map Action.pure).getD i (Action.pure 0)
      = Action.pure (js.getD i 0) := fun i => List.getD_map js 0 Action.pure
  unfold NormalFormGame.is_nash
  have hne2 : ¬ g.N = 2 := by omega
  have hlt : ¬ (js.map Action.pure).length < g.N := by simp [hlen]
  rw [if_neg hne2, if_pos h3, if_neg hlt]
  simp only [Except.ok.injEq, List.all_eq_true, List.mem_range, hbody]

/-- Witness for C1 at the zero-initialized three-player game and the all
zero profile. -/
theorem is_nash_iff_all_rotated_best_responses_witness :
    3 ≤ g3.N ∧
    (g3.is_nash ([0, 0, 0].map Action.pure) = Except.ok true ↔
      ∀ i, i < g3.N →
        (g3.players.getD i defaultPlayer).is_best_response
          (Action.pure ([0, 0, 0].getD i 0))
          ((List.range (g3.N - 1)).map (fun k =>
            Action.pure ([0, 0, 0].getD ((i + 1 + k) % g3.N) 0))) = true) :=
  ⟨by decide,
    is_nash_iff_all_rotated_best_responses g3 [0, 0, 0] (by decide) (by decide)
      (by decide)⟩

theorem reduce_val_congr (t1 t2 : Tensor) (hs : t1.shape = t2.shape)
    (hv : ∀ idx, t1.val idx = t2.val idx) (x : Action) :
    ∀ idx, (reduce_last_player t1 x).val idx = (reduce_last_player t2 x).val idx := by
  intro idx
  cases x with
  | pure a => exact hv (idx ++ [a])
  | mixed m =>
    show (∑ k ∈ Finset.range t1.lastDim, t1.val (idx ++ [k]) * m.getD k 0)
       = (∑ k ∈ Finset.range t2.lastDim, t2.val (idx ++ [k]) * m.getD k 0)
    have hd : t1.lastDim = t2.lastDim := by unfold Tensor.lastDim; rw [hs]
    rw [hd]
    exact Finset.sum_congr rfl (fun k _ => by rw [hv])

theorem pure2mixed_getD (n a k : Nat) (h : k < n) :
    (pure2mixed n a).getD k 0 = if k = a then 1 else 0 := by
  unfold pure2mixed
  rw [List.getD_eq_getElem?_getD, List.getElem?_map, List.getElem?_range h]
  rfl

theorem reduce_mixed_onehot (t : Tensor) (a n : Nat) (ha : a < n)
    (hn : t.lastDim = n) :
    ∀ idx, (reduce_last_player t (Action.mixed (pure2mixed n a))).val idx
      = (reduce_last_player t (Action.pure a)).val idx := by
  intro idx
  show (∑ k ∈ Finset.range t.lastDim, t.val (idx ++ [k]) * (pure2mixed n a).getD k 0)
    = t.val (idx ++ [a])
  rw [hn]
  rw [Finset.sum_congr rfl (fun k hk => by
    rw [pure2mixed_getD n a k (Finset.mem_range.mp hk), mul_ite, mul_one, mul_zero])]
  rw [Finset.sum_ite_eq' (Finset.range n) a (fun k => t.val (idx ++ [k]))]
  rw [if_pos (Finset.mem_range.mpr ha)]

theorem get?_eq_some_getD (l : List Nat) (i : Nat) (h : i < l.length) :
    l.get? i = some (l.getD i 0) := by
  rw [List.get?_eq_getElem?, List.getElem?_eq_getElem h,
    List.getD_eq_getElem?_getD, List.getElem?_eq_getElem h]
  rfl

theorem reduceAll_set_onehot (t : Tensor) :
    ∀ (oa : List Action) (i a n : Nat),
      oa.length ≤ t.shape.length →
      oa.get? i = some (Action.pure a) →
      n = t.shape.getD (t.shape.length - oa.length + i) 0 →
      a < n →
      ∀ idx, (reduceAll t (oa.set i (Action.mixed (pure2mixed n a)))).val idx
        = (reduceAll t oa).val idx := by
  intro oa
  induction oa with
  | nil => intro i a n _ hget; simp at hget
  | cons x rest ih =>
    intro i a n hlen hget hn han idx
    have hr1 : rest.length + 1 ≤ t.shape.length := by simpa using hlen
    cases i with
    | zero =>
      have hx : x = Action.pure a := by simpa using hget
      subst hx
      have hld : (reduceAll t rest).lastDim = n := by
        unfold Tensor.lastDim
        rw [reduceAll_shape t rest, List.length_take,
          Nat.min_eq_left (Nat.sub_le _ _), getD_take _ _ _ _ (by omega), hn]
        congr 1
      exact reduce_mixed_onehot (reduceAll t rest) a n han hld idx
    | succ j =>
      show (reduce_last_player
        (reduceAll t (rest.set j (Action.mixed (pure2mixed n a)))) x).val idx
        = (reduce_last_player (reduceAll t rest) x).val idx
      refine reduce_val_congr _ _ ?_ ?_ x idx
      · rw [reduceAll_shape, reduceAll_shape, List.length_set]
      · refine ih j a n (by omega) (by simpa using hget) ?_ han
        rw [hn]
        congr 1
        simp only [List.length_cons]
        omega

/-- Claim C5: replacing a pure opponent action at position i of a pure
opponent profile by its one-hot mixed representation through pure2mixed
leaves the payoff vector unchanged: the weighted-sum reduction over the
one-hot probability vector equals the slice reduction at the pure index. -/
theorem payoff_vector_onehot_eq_pure (p : Player) (js : List Nat) (i : Nat)
    (h1 : 1 ≤ p.num_opponents) (h2 : js.length = p.num_opponents)
    (hi : i < p.num_opponents)
    (ha : js.getD i 0 < p.action_sizes.getD (i + 1) 0) :
    ∀ a : Nat,
      (p.payoff_vector ((js.map Action.pure).set i
        (Action.mixed (pure2mixed (p.action_sizes.getD (i + 1) 0)
          (js.getD i 0))))).val [a]
      = (p.payoff_vector (js.map Action.pure)).val [a] := by
  intro a
  have hs : p.payoff_array.shape.length = p.num_opponents + 1 := by
    have h1' := h1
    unfold Player.num_opponents at h1' ⊢
    omega
  have hlen1 : (js.map Action.pure).length = p.num_opponents := by simpa using h2
  have hlen2 : ((js.map Action.pure).set i
      (Action.mixed (pure2mixed (p.action_sizes.getD (i + 1) 0)
        (js.getD i 0)))).length = p.num_opponents := by
    rw [List.length_set, hlen1]
  rw [payoff_vector_eq_reduceAll p _ h1 hlen2,
    payoff_vector_eq_reduceAll p _ h1 hlen1]
  refine reduceAll_set_onehot p.payoff_array (js.map Action.pure) i
    (js.getD i 0) (p.action_sizes.getD (i + 1) 0) ?_ ?_ ?_ ha [a]
  · rw [hlen1, hs]; omega
  · rw [List.get?_map, get?_eq_some_getD js i (by omega)]
    rfl
  · show p.action_sizes.getD (i + 1) 0 = _
    unfold Player.action_sizes
    congr 1
    rw [hlen1, hs]
    omega

/-- Witness for C5 at the coordination player, opponent profile (1),
position 0. -/
theorem payoff_vector_onehot_eq_pure_witness :
    1 ≤ Pco.num_opponents ∧
    (Pco.payoff_vector (([1].map Action.pure).set 0
      (Action.mixed (pure2mixed (Pco.action_sizes.getD 1 0) ([1].getD 0 0))))).val [0]
      = (Pco.payoff_vector ([1].map Action.pure)).val [0] :=
  ⟨by decide,
    payoff_vector_onehot_eq_pure Pco [1] 0 (by decide) (by decide) (by decide)
      (by decide) 0⟩

theorem argmaxAux_spec (f : Nat → ℚ) :
    ∀ n, 1 ≤ n →
      argmaxAux f n < n ∧ (∀ j, j < n → f j ≤ f (argmaxAux f n)) ∧
      (∀ j, j < argmaxAux f n → f j < f (argmaxAux f n)) := by
  intro n hn
  induction n, hn using Nat.le_induction with
  | base =>
    have h0 : argmaxAux f 1 = 0 := by
      unfold argmaxAux
      have hr : List.range 1 = [0] := rfl
      rw [hr]
      simp [lt_irrefl]
    rw [h0]
    refine ⟨Nat.one_pos, ?_, ?_⟩
    · intro j hj
      have : j = 0 := by omega
      subst this
      exact le_refl _
    · intro j hj
      exact absurd hj (Nat.not_lt_zero j)
  | succ n hn ih =>
    have hstep : argmaxAux f (n + 1)
        = if f (argmaxAux f n) < f n then n else argmaxAux f n := by
      unfold argmaxAux
      rw [List.range_succ, List.foldl_append]
      rfl
    obtain ⟨h1, h2, h3⟩ := ih
    rw [hstep]
    by_cases hc : f (argmaxAux f n) < f n
    · rw [if_pos hc]
      refine ⟨Nat.lt_succ_self n, ?_, ?_⟩
      · intro j hj
        rcases Nat.lt_succ_iff_lt_or_eq.mp hj with h | h
        · exact le_of_lt (lt_of_le_of_lt (h2 j h) hc)
        · subst h; exact le_refl _
      · intro j hj
        exact lt_of_le_of_lt (h2 j hj) hc
    · rw [if_neg hc]
      exact ⟨Nat.lt_succ_of_lt h1,
        fun j hj => by
          rcases Nat.lt_succ_iff_lt_or_eq.mp hj with h | h
          · exact h2 j h
          · subst h; exact not_lt.mp hc,
        h3⟩

/-- Player whose payoff vector against the single opponent action 0 is
(10 - 1e-9, 10): index 0 is within tolerance of the maximum but does not
attain it. -/
def P3 : Player := ⟨⟨[2, 1], fun idx =>
  if idx = [0, 0] then 10 - mkRat 1 1000000000 else
  if idx = [1, 0] then 10 else 0⟩⟩

/-- Counterexample for claim C3: with the payoff vector (10 - 1e-9, 10),
the tolerance best-response set is (0, 1) with lowest index 0, yet
best_response with tie_breaking first returns 1, the numpy argmax. -/
theorem best_response_first_not_lowest_of_tolerance_set :
    P3.best_response rng0 [Action.pure 0] TieBreaking.first
      = Except.ok (Sum.inl 1) ∧
    (P3.best_responses (P3.payoff_vector [Action.pure 0])).head? = some 0 := by
  refine ⟨rfl, by decide⟩

/-- Claim C3 (amended): best_response with tie_breaking first returns the
numpy argmax of the payoff vector, that is the lowest index attaining the
exact maximum; every index strictly below it has strictly smaller payoff,
so indices merely within tolerance of the maximum are not selected. -/
theorem best_response_first_exact_argmax (p : Player) (rng : List Nat → Nat)
    (oa : List Action) (h : 1 ≤ (p.payoff_vector oa).shape.headD 0) :
    p.best_response rng oa TieBreaking.first
      = Except.ok (Sum.inl (p.payoff_vector oa).argmax) ∧
    (p.payoff_vector oa).argmax < (p.payoff_vector oa).shape.headD 0 ∧
    (∀ j, j < (p.payoff_vector oa).shape.headD 0 →
      (p.payoff_vector oa).val [j] ≤ (p.payoff_vector oa).val [(p.payoff_vector oa).argmax]) ∧
    (∀ j, j < (p.payoff_vector oa).argmax →
      (p.payoff_vector oa).val [j] < (p.payoff_vector oa).val [(p.payoff_vector oa).argmax]) := by
  have hs := argmaxAux_spec (fun i => (p.payoff_vector oa).val [i]) _ h
  exact ⟨rfl, hs.1, hs.2.1, hs.2.2⟩

/-- Witness for the amended C3 at the player with payoff vector
(10 - 1e-9, 10). -/
theorem best_response_first_exact_argmax_witness :
    1 ≤ (P3.payoff_vector [Action.pure 0]).shape.headD 0 ∧
    P3.best_response rng0 [Action.pure 0] TieBreaking.first
      = Except.ok (Sum.inl (P3.payoff_vector [Action.pure 0]).argmax) ∧
    (P3.payoff_vector [Action.pure 0]).argmax
      < (P3.payoff_vector [Action.pure 0]).shape.headD 0 :=
  ⟨by decide,
    (best_response_first_exact_argmax P3 rng0 [Action.pure 0] (by decide)).1,
    (best_response_first_exact_argmax P3 rng0 [Action.pure 0] (by decide)).2.1⟩

/-- Claim C4: is_best_response of a pure action holds exactly when its
payoff vector entry is within tol of the maximum; of a mixed action,
exactly when the dot product with the payoff vector is within tol of the
maximum; and every index in the set returned by best_response with
tie_breaking False satisfies is_best_response. -/
theorem is_best_response_characterization (p : Player) (rng : List Nat → Nat)
    (oa : List Action) :
    (∀ a : Nat, p.is_best_response (Action.pure a) oa = true ↔
      (p.payoff_vector oa).maxval - p.tol ≤ (p.payoff_vector oa).val [a]) ∧
    (∀ m : List ℚ, p.is_best_response (Action.mixed m) oa = true ↔
      (p.payoff_vector oa).maxval - p.tol ≤ dotVec m (p.payoff_vector oa)) ∧
    (∀ l, p.best_response rng oa TieBreaking.off = Except.ok (Sum.inr l) →
      ∀ i, i ∈ l → p.is_best_response (Action.pure i) oa = true) := by
  refine ⟨?_, ?_, ?_⟩
  · intro a
    exact decide_eq_true_iff
  · intro m
    exact decide_eq_true_iff
  · intro l hl i hi
    have hleq : p.best_responses (p.payoff_vector oa) = l := by
      simpa [Player.best_response] using hl
    subst hleq
    exact (List.mem_filter.mp hi).2

/-- Witness for C4 at the coordination player: action 0 is a best response
to opponent action 0 and lies in the set returned with tie_breaking
False. -/
theorem is_best_response_characterization_witness :
    Pco.is_best_response (Action.pure 0) [Action.pure 0] = true ∧
    ((Pco.payoff_vector [Action.pure 0]).maxval - Pco.tol
      ≤ (Pco.payoff_vector [Action.pure 0]).val [0]) :=
  ⟨(is_best_response_characterization Pco rng0 [Action.pure 0]).2.2
      (Pco.best_responses (Pco.payoff_vector [Action.pure 0])) rfl 0 (by decide),
    ((is_best_response_characterization Pco rng0 [Action.pure 0]).1 0).mp (by decide)⟩

/-- Claim C8: best_response with a tie_breaking value outside the three
accepted ones fails with the invalid-argument error naming the accepted
set, and each of the three accepted values produces a result. -/
theorem best_response_tie_breaking_validation (p : Player) (rng : List Nat → Nat)
    (oa : List Action) (s : String) :
    p.best_response rng oa (TieBreaking.other s)
      = Except.error "tie_breaking must be one of \u0027first\u0027, \u0027random\u0027 or False" ∧
    (∃ r, p.best_response rng oa TieBreaking.first = Except.ok r) ∧
    (∃ r, p.best_response rng oa TieBreaking.random = Except.ok r) ∧
    (∃ r, p.best_response rng oa TieBreaking.off = Except.ok r) :=
  ⟨rfl, ⟨_, rfl⟩, ⟨_, rfl⟩, ⟨_, rfl⟩⟩

theorem getD_map_range {α : Type} (n : Nat) (f : Nat → α) (i : Nat) (d : α)
    (h : i < n) : ((List.range n).map f).getD i d = f i := by
  rw [List.getD_eq_getElem?_getD, List.getElem?_map, List.getElem?_range h]
  rfl

theorem map_range_eq_of_getD {α : Type} (n : Nat) (F : Nat → α) (v : List α)
    (d : α) (hlen : v.length = n) (h : ∀ i, i < n → F i = v.getD i d) :
    (List.range n).map F = v := by
  refine List.ext_getElem (by simp [hlen]) ?_
  intro i h1 h2
  have hi : i < n := by simpa using h1
  rw [List.getElem_map, List.getElem_range, h i hi,
    List.getD_eq_getElem?_getD, List.getElem?_eq_getElem h2]
  rfl

theorem getitem_ok (g : NormalFormGame) (l : List Nat) (hl : l.length = g.N) :
    g.getitem (PyArg.seq l) = Except.ok ((List.range g.N).map (fun i =>
      (g.players.getD i defaultPlayer).payoff_array.val (rotIndex l i g.N))) := by
  simp only [NormalFormGame.getitem]
  rw [if_neg (fun h => h hl)]

theorem store_fold_length (r : Nat → Nat) (upd : Tensor → Nat → Tensor) :
    ∀ (ks : List Nat) (arrs : List Tensor),
      (ks.foldl (fun a i => a.set (r i) (upd (a.getD (r i) defaultTensor) i))
        arrs).length = arrs.length := by
  intro ks
  induction ks with
  | nil => intro arrs; rfl
  | cons j rest ih =>
    intro arrs
    rw [List.foldl_cons, ih, List.length_set]

theorem store_fold_untouched (r : Nat → Nat) (upd : Tensor → Nat → Tensor) :
    ∀ (ks : List Nat) (arrs : List Tensor) (k : Nat),
      (∀ j, j ∈ ks → r j ≠ k) →
      (ks.foldl (fun a i => a.set (r i) (upd (a.getD (r i) defaultTensor) i))
        arrs).getD k defaultTensor = arrs.getD k defaultTensor := by
  intro ks
  induction ks with
  | nil => intro arrs k _; rfl
  | cons j rest ih =>
    intro arrs k hk
    rw [List.foldl_cons, ih _ k (fun x hx => hk x (List.mem_cons_of_mem j hx)),
      List.getD_eq_getElem?_getD,
      List.getElem?_set_ne (hk j (List.mem_cons_self j rest)),
      ← List.getD_eq_getElem?_getD]

theorem store_fold_getD (r : Nat → Nat) (upd : Tensor → Nat → Tensor) :
    ∀ (ks : List Nat) (arrs : List Tensor) (i : Nat),
      i ∈ ks → ks.Pairwise (fun a b => r a ≠ r b) → r i < arrs.length →
      (ks.foldl (fun a i => a.set (r i) (upd (a.getD (r i) defaultTensor) i))
        arrs).getD (r i) defaultTensor
      = upd (arrs.getD (r i) defaultTensor) i := by
  intro ks
  induction ks with
  | nil => intro arrs i hmem; exact absurd hmem (List.not_mem_nil i)
  | cons j rest ih =>
    intro arrs i hmem hpw hlt
    have hhead := (List.pairwise_cons.mp hpw).1
    have htail := (List.pairwise_cons.mp hpw).2
    rw [List.foldl_cons]
    rcases List.mem_cons.mp hmem with heq | hmem2
    · subst heq
      rw [store_fold_untouched r upd rest _ (r i)
        (fun x hx => Ne.symm (hhead x hx)),
        List.getD_eq_getElem?_getD, List.getElem?_set_self hlt]
      rfl
    · have hne : r j ≠ r i := hhead i hmem2
      rw [ih _ i hmem2 htail (by rw [List.length_set]; exact hlt)]
      congr 1
      rw [List.getD_eq_getElem?_getD, List.getElem?_set_ne hne,
        ← List.getD_eq_getElem?_getD]

/-- The symmetric coordination game seen as an object graph: the single
payoff matrix (4, 0; 3, 2) referenced by both players. -/
def gsym : GameStore := GameStore.fromSymmetricMatrix ⟨[2, 2], fun idx =>
  if idx = [0, 0] then 4 else if idx = [0, 1] then 0 else
  if idx = [1, 0] then 3 else if idx = [1, 1] then 2 else 0⟩

/-- Counterexample for claim C6: in the square-matrix symmetric form both
players alias one ndarray, so writing the payoff profile (5, 7) at the
diagonal action profile (0, 0) lands twice on the same array cell and the
later write wins: reading (0, 0) back returns (7, 7), not the written
(5, 7), and the rotated read for player 0 yields 7, not its written
payoff 5. -/
theorem setitem_symmetric_alias_clobbers_write :
    (gsym.setitem (PyArg.seq [0, 0]) (PyArg.seq [5, 7])).2 = none ∧
    (gsym.setitem (PyArg.seq [0, 0]) (PyArg.seq [5, 7])).1.getitem
      (PyArg.seq [0, 0]) = Except.ok [7, 7] ∧
    ((gsym.setitem (PyArg.seq [0, 0]) (PyArg.seq [5, 7])).1.payoff_array 0).val
      (rotIndex [0, 0] 0 2) = 7 ∧
    ([7, 7] : List ℚ) ≠ [5, 7] :=
  ⟨rfl, rfl, rfl, by decide⟩

/-- Claim C6 (amended): for a game whose N players reference pairwise
distinct payoff arrays, as every accepted constructor except the
square-matrix symmetric form produces, a valid write stores, for each
player, that player's payoff at the coordinate rotated to its axis order,
so all tensors stay mutually consistent and reading the same action
profile back returns exactly the written payoff profile.  In the symmetric
form both players alias one array and a diagonal write is clobbered. -/
theorem setitem_distinct_refs_consistent (s : GameStore) (l : List Nat)
    (v : List ℚ) (hl : l.length = s.N) (hv : v.length = s.N)
    (hrange : ∀ i, i < s.N → s.refs.getD i 0 < s.arrays.length)
    (hdist : ∀ i, i < s.N → ∀ j, j < s.N → i ≠ j →
      s.refs.getD i 0 ≠ s.refs.getD j 0) :
    (s.setitem (PyArg.seq l) (PyArg.seq v)).2 = none ∧
    (∀ i, i < s.N →
      ((s.setitem (PyArg.seq l) (PyArg.seq v)).1.payoff_array i).val
        (rotIndex l i s.N) = v.getD i 0) ∧
    (s.setitem (PyArg.seq l) (PyArg.seq v)).1.getitem (PyArg.seq l)
      = Except.ok v := by
  have hset : s.setitem (PyArg.seq l) (PyArg.seq v)
      = (GameStore.mk ((List.range s.N).foldl (fun arrs i =>
            arrs.set (s.refs.getD i 0)
              ((arrs.getD (s.refs.getD i 0) defaultTensor).write
                (rotIndex l i s.N) (v.getD i 0))) s.arrays)
          s.refs, none) := by
    simp only [GameStore.setitem]
    rw [if_neg (fun h => h hl), if_neg (fun h => h hv)]
  have hpw : (List.range s.N).Pairwise
      (fun a b => s.refs.getD a 0 ≠ s.refs.getD b 0) := by
    rw [List.pairwise_iff_getElem]
    intro i j h1 h2 hij
    have h1' : i < s.N := by simpa using h1
    have h2' : j < s.N := by simpa using h2
    simp only [List.getElem_range]
    exact hdist i h1' j h2' (by omega)
  have hval : ∀ i, i < s.N →
      ((s.setitem (PyArg.seq l) (PyArg.seq v)).1.payoff_array i).val
        (rotIndex l i s.N) = v.getD i 0 := by
    intro i hi
    rw [hset]
    simp only [GameStore.payoff_array]
    rw [store_fold_getD (fun j => s.refs.getD j 0)
      (fun t j => t.write (rotIndex l j s.N) (v.getD j 0))
      (List.range s.N) s.arrays i (List.mem_range.mpr hi) hpw (hrange i hi)]
    show (if rotIndex l i s.N = rotIndex l i s.N then v.getD i 0 else _)
      = v.getD i 0
    rw [if_pos rfl]
  refine ⟨by rw [hset], hval, ?_⟩
  have hgoal := hval
  rw [hset] at hgoal ⊢
  simp only [GameStore.getitem]
  rw [if_neg (fun h => h hl), Except.ok.injEq]
  exact map_range_eq_of_getD s.N _ v 0 hv (fun i hi => hgoal i hi)

/-- Witness for the amended C6 at the two-player game built from the
action-size descriptor (2, 2), whose players reference distinct arrays. -/
theorem setitem_distinct_refs_consistent_witness :
    ((GameStore.fromActionSizes [2, 2]).setitem (PyArg.seq [0, 1])
      (PyArg.seq [5, 7])).2 = none ∧
    ((GameStore.fromActionSizes [2, 2]).setitem (PyArg.seq [0, 1])
      (PyArg.seq [5, 7])).1.getitem (PyArg.seq [0, 1]) = Except.ok [5, 7] :=
  ⟨(setitem_distinct_refs_consistent (GameStore.fromActionSizes [2, 2])
      [0, 1] [5, 7] (by decide) (by decide) (by decide) (by decide)).1,
    (setitem_distinct_refs_consistent (GameStore.fromActionSizes [2, 2])
      [0, 1] [5, 7] (by decide) (by decide) (by decide) (by decide)).2.2⟩

/-- Claim C9: in the zero-initialized 2 by 2 game, writing (-2, 0) at
profile (1, 1) makes reading (1, 1) return exactly (-2, 0) while every
other profile still reads (0, 0). -/
theorem write_frame_effect_2x2 :
    (g22.setitem (PyArg.seq [1, 1]) (PyArg.seq [-2, 0])).2 = none ∧
    (g22.setitem (PyArg.seq [1, 1]) (PyArg.seq [-2, 0])).1.getitem
      (PyArg.seq [1, 1]) = Except.ok [-2, 0] ∧
    (g22.setitem (PyArg.seq [1, 1]) (PyArg.seq [-2, 0])).1.getitem
      (PyArg.seq [0, 0]) = Except.ok [0, 0] ∧
    (g22.setitem (PyArg.seq [1, 1]) (PyArg.seq [-2, 0])).1.getitem
      (PyArg.seq [0, 1]) = Except.ok [0, 0] ∧
    (g22.setitem (PyArg.seq [1, 1]) (PyArg.seq [-2, 0])).1.getitem
      (PyArg.seq [1, 0]) = Except.ok [0, 0] :=
  ⟨rfl, rfl, rfl, rfl, rfl⟩

/-- Claim C10: a write whose payoff profile has the wrong length, or is
not a sequence, fails with an error raised before any tensor assignment,
so the game state after the call is exactly the original one. -/
theorem setitem_invalid_value_no_write (g : NormalFormGame) (l : List Nat)
    (hl : l.length = g.N) :
    (∀ v : List ℚ, v.length ≠ g.N →
      g.setitem (PyArg.seq l) (PyArg.seq v)
        = (g, some "ValueError: value must be an array_like of length N")) ∧
    g.setitem (PyArg.seq l) PyArg.nonseq
      = (g, some "TypeError: value must be a tuple") := by
  constructor
  · intro v hv
    simp only [NormalFormGame.setitem]
    rw [if_neg (fun h => h hl), if_pos hv]
  · simp only [NormalFormGame.setitem]
    rw [if_neg (fun h => h hl)]

/-- Witness for C10 at the zero two-player game. -/
theorem setitem_invalid_value_no_write_witness :
    g22.setitem (PyArg.seq [0, 0]) (PyArg.seq [3])
      = (g22, some "ValueError: value must be an array_like of length N") ∧
    g22.setitem (PyArg.seq [0, 0]) PyArg.nonseq
      = (g22, some "TypeError: value must be a tuple") :=
  ⟨(setitem_invalid_value_no_write g22 [0, 0] (by decide)).1 [3] (by decide),
    (setitem_invalid_value_no_write g22 [0, 0] (by decide)).2⟩

/-- Counterexample for claim C7: the two-player zero game accepts a
length-3 profile in is_nash and returns a result instead of failing, the
source never checks the profile length there. -/
theorem is_nash_ignores_extra_profile_entries :
    g22.N = 2 ∧
    g22.is_nash [Action.pure 0, Action.pure 0, Action.pure 0]
      = Except.ok true :=
  ⟨rfl, rfl⟩

/-- Claim C7 (amended): indexed read and write fail with an invalid-index
error on any profile length other than N and with a type error on a
non-sequence; is_nash fails with an index error when the profile is
shorter than N, but returns a result, ignoring the extra entries, whenever
the profile has length at least N. -/
theorem index_arity_error_handling :
    (∀ (g : NormalFormGame) (l : List Nat), l.length ≠ g.N →
      g.getitem (PyArg.seq l)
        = Except.error "IndexError: index must be of length N") ∧
    (∀ (g : NormalFormGame) (l : List Nat) (pp : PyArg ℚ), l.length ≠ g.N →
      (g.setitem (PyArg.seq l) pp).2
        = some "IndexError: index must be of length N") ∧
    (∀ g : NormalFormGame,
      g.getitem PyArg.nonseq = Except.error "TypeError: index must be a tuple") ∧
    (∀ (g : NormalFormGame) (pp : PyArg ℚ),
      (g.setitem PyArg.nonseq pp).2 = some "TypeError: index must be a tuple") ∧
    (∀ (g : NormalFormGame) (ap : List Action), 1 ≤ g.N → ap.length < g.N →
      (g.is_nash ap).isOk = false) ∧
    (∀ (g : NormalFormGame) (ap : List Action), 1 ≤ g.N → g.N ≤ ap.length →
      (g.is_nash ap).isOk = true) := by
  refine ⟨?_, ?_, ?_, ?_, ?_, ?_⟩
  · intro g l h
    simp only [NormalFormGame.getitem]
    rw [if_pos h]
  · intro g l pp h
    simp only [NormalFormGame.setitem]
    rw [if_pos h]
  · intro g
    rfl
  · intro g pp
    rfl
  · intro g ap h1 h2
    unfold NormalFormGame.is_nash
    by_cases h2N : g.N = 2
    · rw [if_pos h2N]
      have hn1 : ap[1]? = none := List.getElem?_eq_none (by omega)
      cases h0 : ap[0]? <;> simp [h0, hn1, Except.isOk, Except.toBool]
    · by_cases h3N : 3 ≤ g.N
      · rw [if_neg h2N, if_pos h3N, if_pos h2]
        rfl
      · rw [if_neg h2N, if_neg h3N]
        have hn0 : ap[0]? = none := List.getElem?_eq_none (by omega)
        simp [hn0, Except.isOk, Except.toBool]
  · intro g ap h1 hlen
    unfold NormalFormGame.is_nash
    by_cases h2N : g.N = 2
    · rw [if_pos h2N]
      obtain ⟨a0, h0⟩ : ∃ a, ap[0]? = some a :=
        ⟨_, List.getElem?_eq_getElem (by omega)⟩
      obtain ⟨a1, hone⟩ : ∃ a, ap[1]? = some a :=
        ⟨_, List.getElem?_eq_getElem (by omega)⟩
      simp [h0, hone, Except.isOk, Except.toBool]
    · by_cases h3N : 3 ≤ g.N
      · rw [if_neg h2N, if_pos h3N, if_neg (by omega)]
        rfl
      · rw [if_neg h2N, if_neg h3N]
        obtain ⟨a0, h0⟩ : ∃ a, ap[0]? = some a :=
          ⟨_, List.getElem?_eq_getElem (by omega)⟩
        simp [h0, Except.isOk, Except.toBool]

/-- Witness for the amended C7 at the zero two-player game. -/
theorem index_arity_error_handling_witness :
    g22.getitem (PyArg.seq [0])
      = Except.error "IndexError: index must be of length N" ∧
    (g22.setitem (PyArg.seq [0]) (PyArg.seq [1, 2])).2
      = some "IndexError: index must be of length N" ∧
    g22.getitem PyArg.nonseq = Except.error "TypeError: index must be a tuple" ∧
    (g22.setitem PyArg.nonseq (PyArg.seq [1, 2])).2
      = some "TypeError: index must be a tuple" ∧
    (g22.is_nash [Action.pure 0]).isOk = false ∧
    (g22.is_nash [Action.pure 0, Action.pure 0, Action.pure 0]).isOk = true :=
  ⟨index_arity_error_handling.1 g22 [0] (by decide),
    index_arity_error_handling.2.1 g22 [0] (PyArg.seq [1, 2]) (by decide),
    index_arity_error_handling.2.2.1 g22,
    index_arity_error_handling.2.2.2.1 g22 (PyArg.seq [1, 2]),
    index_arity_error_handling.2.2.2.2.1 g22 [Action.pure 0] (by decide) (by decide),
    index_arity_error_handling.2.2.2.2.2 g22
      [Action.pure 0, Action.pure 0, Action.pure 0] (by decide) (by decide)⟩

end GameTools
